import Mathlib

/-!
# Formal model of the BICLE ledger core (`src/Bicle/bicle.py`)

A shallow embedding of the ledger subsystem of the BICLE node: content
hashing (`create_iHash`, `compute_block_hash`), the genesis block,
block construction (`build_block_from_items`), chain verification
(`verify_chain`), submission (`submit`), and the load-time pruning of
the dedup index (`init_storage`).

Conventions of the embedding:

* Python's `hashlib.sha256(...).hexdigest()` is modelled by an executable
  SHA-256 over UTF-8 byte lists, rendered as a lowercase hex string
  (`sha256Hex`).  32-bit machine words are `Nat` values reduced `% 2^32`.
* The three process-wide mutable stores (`sent_news`, `pending`, `blocks`)
  become an explicit `NodeState` record threaded through the operations;
  Python dicts are modelled extensionally as `String → Option _` maps.
* `datetime.now(...)` results are nondeterministic environment inputs and
  are passed in as ISO-timestamp string parameters.
-/

set_option maxRecDepth 20000

namespace Bicle

/-! ## SHA-256 (executable, over byte lists as `Nat`s below 256) -/

/-- Right rotation of a 32-bit word represented as a `Nat` below `2^32`. -/
def rotr (n x : Nat) : Nat := ((x >>> n) ||| (x <<< (32 - n))) % 4294967296

/-- Bitwise complement within 32 bits. -/
def wnot (x : Nat) : Nat := x ^^^ 4294967295

/-- SHA-256 big sigma-0. -/
def bsig0 (x : Nat) : Nat := rotr 2 x ^^^ rotr 13 x ^^^ rotr 22 x

/-- SHA-256 big sigma-1. -/
def bsig1 (x : Nat) : Nat := rotr 6 x ^^^ rotr 11 x ^^^ rotr 25 x

/-- SHA-256 small sigma-0. -/
def ssig0 (x : Nat) : Nat := rotr 7 x ^^^ rotr 18 x ^^^ (x >>> 3)

/-- SHA-256 small sigma-1. -/
def ssig1 (x : Nat) : Nat := rotr 17 x ^^^ rotr 19 x ^^^ (x >>> 10)

/-- The 64 SHA-256 round constants (FIPS 180-4, written in decimal). -/
def sha256K : List Nat :=
  [1116352408, 1899447441, 3049323471, 3921009573, 961987163, 1508970993,
   2453635748, 2870763221, 3624381080, 310598401, 607225278, 1426881987,
   1925078388, 2162078206, 2614888103, 3248222580, 3835390401, 4022224774,
   264347078, 604807628, 770255983, 1249150122, 1555081692, 1996064986,
   2554220882, 2821834349, 2952996808, 3210313671, 3336571891, 3584528711,
   113926993, 338241895, 666307205, 773529912, 1294757372, 1396182291,
   1695183700, 1986661051, 2177026350, 2456956037, 2730485921, 2820302411,
   3259730800, 3345764771, 3516065817, 3600352804, 4094571909, 275423344,
   430227734, 506948616, 659060556, 883997877, 958139571, 1322822218,
   1537002063, 1747873779, 1955562222, 2024104815, 2227730452, 2361852424,
   2428436474, 2756734187, 3204031479, 3329325298]

/-- The SHA-256 initial hash state (FIPS 180-4, written in decimal). -/
def sha256H0 : List Nat :=
  [1779033703, 3144134277, 1013904242, 2773480762,
   1359893119, 2600822924, 528734635, 1541459225]

/-- SHA-256 message padding: append the `0x80` byte, zero bytes up to 56 mod
64, and the 64-bit big-endian bit length. -/
def padBytes (msg : List Nat) : List Nat :=
  let L := msg.length
  let k := (119 - L % 64) % 64
  let bitLen := 8 * L
  msg ++ 0x80 :: List.replicate k 0 ++
    [(bitLen >>> 56) % 256, (bitLen >>> 48) % 256, (bitLen >>> 40) % 256, (bitLen >>> 32) % 256,
     (bitLen >>> 24) % 256, (bitLen >>> 16) % 256, (bitLen >>> 8) % 256, bitLen % 256]

/-- Group bytes into big-endian 32-bit words. -/
def toWords : List Nat → List Nat
  | b0 :: b1 :: b2 :: b3 :: rest =>
      ((b0 <<< 24) ||| (b1 <<< 16) ||| (b2 <<< 8) ||| b3) :: toWords rest
  | _ => []

/-- One step of the message-schedule extension, on the reversed schedule
(head = most recent word). -/
def wstep (rw : List Nat) : Nat :=
  (ssig1 (rw.getD 1 0) + rw.getD 6 0 + ssig0 (rw.getD 14 0) + rw.getD 15 0) % 4294967296

/-- Extend the reversed message schedule by `k` words. -/
def extendW : Nat → List Nat → List Nat
  | 0, rw => rw
  | k + 1, rw => extendW k (wstep rw :: rw)

/-- The full 64-word message schedule of one block. -/
def schedule (ws : List Nat) : List Nat := (extendW 48 ws.reverse).reverse

/-- One SHA-256 compression round on the working state `[a,b,c,d,e,f,g,h]`. -/
def roundStep (st : List Nat) (k w : Nat) : List Nat :=
  let a := st.getD 0 0
  let b := st.getD 1 0
  let c := st.getD 2 0
  let d := st.getD 3 0
  let e := st.getD 4 0
  let f := st.getD 5 0
  let g := st.getD 6 0
  let h := st.getD 7 0
  let t1 := (h + bsig1 e + ((e &&& f) ^^^ (wnot e &&& g)) + k + w) % 4294967296
  let t2 := (bsig0 a + ((a &&& b) ^^^ (a &&& c) ^^^ (b &&& c))) % 4294967296
  [(t1 + t2) % 4294967296, a, b, c, (d + t1) % 4294967296, e, f, g]

/-- Compress one 64-byte block into the running hash state. -/
def compress (hs : List Nat) (blockBytes : List Nat) : List Nat :=
  let w := schedule (toWords blockBytes)
  let fin := (sha256K.zip w).foldl (fun st kw => roundStep st kw.1 kw.2) hs
  List.zipWith (fun x y => (x + y) % 4294967296) hs fin

/-- Split a byte list into 64-byte chunks (fuel-driven so the kernel can
reduce it; `fuel ≥ length` always suffices). -/
def chunk64 : Nat → List Nat → List (List Nat)
  | 0, _ => []
  | _, [] => []
  | fuel + 1, l => l.take 64 :: chunk64 fuel (l.drop 64)

/-- SHA-256 of a byte list, as the 8 final 32-bit state words. -/
def sha256Words (msg : List Nat) : List Nat :=
  let p := padBytes msg
  (chunk64 p.length p).foldl compress sha256H0

/-- A lowercase hex digit. -/
def hexChar (n : Nat) : Char := if n < 10 then Char.ofNat (48 + n) else Char.ofNat (87 + n)

/-- Render one 32-bit word as 8 lowercase hex characters. -/
def wordHex (w : Nat) : List Char :=
  [hexChar ((w >>> 28) &&& 15), hexChar ((w >>> 24) &&& 15), hexChar ((w >>> 20) &&& 15),
   hexChar ((w >>> 16) &&& 15), hexChar ((w >>> 12) &&& 15), hexChar ((w >>> 8) &&& 15),
   hexChar ((w >>> 4) &&& 15), hexChar (w &&& 15)]

/-- Render a word list as a hex string. -/
def hexOfWords (ws : List Nat) : String := ⟨ws.foldr (fun w acc => wordHex w ++ acc) []⟩

/-- UTF-8 encoding of a single character, as bytes. -/
def utf8Char (c : Char) : List Nat :=
  let n := c.toNat
  if n < 128 then [n]
  else if n < 2048 then [192 ||| (n >>> 6), 128 ||| (n &&& 63)]
  else if n < 65536 then
    [224 ||| (n >>> 12), 128 ||| ((n >>> 6) &&& 63), 128 ||| (n &&& 63)]
  else
    [240 ||| (n >>> 18), 128 ||| ((n >>> 12) &&& 63), 128 ||| ((n >>> 6) &&& 63), 128 ||| (n &&& 63)]

/-- UTF-8 encoding of a string, as bytes. -/
def utf8Bytes (s : String) : List Nat := (s.data.map utf8Char).flatten

/-- `hashlib.sha256(s.encode('utf-8')).hexdigest()`. -/
def sha256Hex (s : String) : String := hexOfWords (sha256Words (utf8Bytes s))

/-! ## String order

Python compares strings lexicographically by code point; that is the order
`sorted` uses in `compute_block_hash` and the order of the `v >= cutoff`
comparison in `init_storage`.  (We spell it out as an executable `Bool`
comparison rather than using core's `String.le`, whose `Decidable`
instance is iterator-based and does not reduce in the kernel.) -/

/-- Lexicographic comparison of code-point lists (Python string `<=`). -/
def lexLe : List Char → List Char → Bool
  | [], _ => true
  | _ :: _, [] => false
  | a :: as, b :: bs =>
    if a.toNat < b.toNat then true
    else if b.toNat < a.toNat then false
    else lexLe as bs

/-- Python string `a <= b`. -/
def strLe (a b : String) : Bool := lexLe a.data b.data

/-- Python's string order as a relation, for `List.insertionSort`. -/
def strOrder (a b : String) : Prop := strLe a b = true

instance : DecidableRel strOrder := fun a b => instDecidableEqBool (strLe a b) true

/-! ## Data model

Python dicts for news items / ledger entries / blocks become records; the
field order follows the dict literals in `bicle.py`. -/

/-- Python string slicing `s[:n]`: the first `n` code points. -/
def strTake (n : Nat) (s : String) : String := ⟨s.data.take n⟩

/-- A candidate news item, as consumed by `build_block_from_items` (dict with
keys `title`, `link`, `source`, `published`, `summary`). -/
structure Item where
  title : String
  link : String
  source : String
  published : String
  summary : String
deriving DecidableEq, Repr

/-- A news entry stored inside a block's `news` list (the dict literal built
at `bicle.py:267-274`). -/
structure Entry where
  title : String
  link : String
  source : String
  published : String
  summary : String
  iHash : String
deriving DecidableEq, Repr

/-- A block of the ledger (the dict literal built at `bicle.py:290-296`;
`previous` is `None` exactly for the genesis block). -/
structure Block where
  block_number : Nat
  timestamp : String
  news : List Entry
  blockhash : String
  previous : Option String
deriving DecidableEq, Repr

/-- A pending user submission (the dict literal at `bicle.py:370-379`). -/
structure PendingEntry where
  title : String
  link : String
  source : String
  published : String
  submitter : String
  added_at : String
  iHash : String
deriving DecidableEq, Repr

/-- The three process-wide stores of `bicle.py` (`sent_news`, `pending`,
`blocks`), threaded explicitly.  The two dicts are modelled extensionally as
maps from a link to an optional value. -/
structure NodeState where
  sent_news : String → Option String
  pending : String → Option PendingEntry
  blocks : List Block

/-- The empty `sent_news` store. -/
def emptyStr : String → Option String := fun _ => none

/-- The empty `pending` store. -/
def emptyPend : String → Option PendingEntry := fun _ => none

/-- Point update of a store: set key `lk` to `c` (Python `m[lk] = v`, or
`del m[lk]` for `c = none` — unconditional deletion agrees pointwise with
Python's `if lk in m: del m[lk]`). -/
def setKey {α : Type} (c : Option α) (m : String → Option α) (lk : String) :
    String → Option α :=
  fun q => if q = lk then c else m q

/-! ## Cryptographic functions (`bicle.py:128-161`) -/

/-- `create_iHash` (`bicle.py:152-155`): SHA-256 hex digest of the plain
concatenation of the four fields.  Python's `(x or "")` is the identity on
strings (missing fields are already modelled as `""`). -/
def create_iHash (title link source published : String) : String :=
  sha256Hex (title ++ link ++ source ++ published)

/-- `compute_block_hash` (`bicle.py:157-161`): sort the item digests as
strings (Python `sorted`, lexicographic by code point — `List.insertionSort`
over `strOrder` computes the same sorted permutation), then hash their
concatenation. -/
def compute_block_hash (iHashes : List String) : String :=
  sha256Hex (String.join (List.insertionSort strOrder iHashes))

/-- `create_genesis_block` (`bicle.py:128-149`): the fixed hardcoded genesis
block, number 0, `previous = None`. -/
def create_genesis_block : Block :=
  let title := "The Guardian 05/Nov/2025 - on the brink of a financial crisis for AIs in companies"
  let link := "https://www.theguardian.com/business/2025/nov/05/global-stock-markets-fall-sharply-over-ai-bubble-fears"
  let source := "The Guardian"
  let published := "2025-11-05"
  let ihash := sha256Hex (title ++ link ++ source ++ published)
  { block_number := 0
    timestamp := "2025-11-05T11:20:00Z"
    news := [{ title := title, link := link, source := source, published := published,
               summary := "Global stock markets fall sharply amid fears of an AI-driven financial bubble collapse.",
               iHash := ihash }]
    blockhash := sha256Hex ihash
    previous := none }

/-! ## Chain verification (`bicle.py:165-182`) -/

/-- The two checks `verify_chain` performs on a non-genesis block `b` whose
predecessor is `prev`: the `previous` link matches, and the stored
`blockhash` equals the hash recomputed from the block's own entries. -/
def checkBlock (prev b : Block) : Bool :=
  (b.previous == some prev.blockhash) &&
    (b.blockhash == compute_block_hash (b.news.map Entry.iHash))

/-- Walk the chain from index 1 on, carrying the predecessor — the loop
`for i in range(1, len(blocks))` of `verify_chain`, with `&&` giving the
same first-mismatch short-circuit as the early `return False`. -/
def verifyFrom : Block → List Block → Bool
  | _, [] => true
  | prev, b :: rest => checkBlock prev b && verifyFrom b rest

/-- `verify_chain` (`bicle.py:165-182`): trivially true for chains of length
`≤ 1`; otherwise every non-genesis block is checked against its
predecessor.  The genesis block (index 0) itself is never rechecked. -/
def verify_chain : List Block → Bool
  | [] => true
  | b :: rest => verifyFrom b rest

/-! ## Block construction (`bicle.py:245-309`) -/

/-- The ledger entry stored for a selected candidate (`bicle.py:267-274`):
title truncated to 280 code points, summary to 300, and the `iHash`
computed at `bicle.py:261` from the *untruncated* title. -/
def mkEntry (it : Item) : Entry :=
  { title := strTake 280 it.title
    link := it.link
    source := it.source
    published := it.published
    summary := strTake 300 it.summary
    iHash := create_iHash it.title it.link it.source it.published }

/-- The selection loop of `build_block_from_items` (`bicle.py:250-278`):
skip links already in `sent_news`, skip digests already selected in this
pass, accept (truncated) otherwise, and break once `max_news` entries are
selected.  Returns the `selected` entries together with the accumulated
`iHashes` list. -/
def selectItems (sent : String → Option String) (maxNews : Nat) :
    List Item → List Entry → List String → List Entry × List String
  | [], sel, ihs => (sel, ihs)
  | it :: rest, sel, ihs =>
    if (sent it.link).isSome then
      selectItems sent maxNews rest sel ihs
    else if create_iHash it.title it.link it.source it.published ∈ ihs then
      selectItems sent maxNews rest sel ihs
    else if maxNews ≤ sel.length + 1 then
      (sel ++ [mkEntry it], ihs ++ [create_iHash it.title it.link it.source it.published])
    else
      selectItems sent maxNews rest (sel ++ [mkEntry it])
        (ihs ++ [create_iHash it.title it.link it.source it.published])

/-- `build_block_from_items` (`bicle.py:245-309`).  `now` is the
`datetime.now(timezone.utc)` timestamp supplied by the environment.  On an
empty selection the function returns `None` before touching any store; on
success it assembles the block (`block_number = len(blocks) + 1`,
`previous` = the tip's `blockhash`), marks every selected link broadcast,
drops it from `pending`, and appends the block to the ledger. -/
def build_block_from_items (st : NodeState) (items : List Item) (now : String)
    (maxNews : Nat) : Option Block × NodeState :=
  let res := selectItems st.sent_news maxNews items [] []
  if res.1.isEmpty then (none, st)
  else
    let block : Block :=
      { block_number := st.blocks.length + 1
        timestamp := now
        news := res.1
        blockhash := compute_block_hash res.2
        previous := st.blocks.getLast?.map Block.blockhash }
    (some block,
      { sent_news := res.1.foldl (fun m n => setKey (some now) m n.link) st.sent_news
        pending := res.1.foldl (fun m n => setKey none m n.link) st.pending
        blocks := st.blocks ++ [block] })

/-- Iterate builds: each element of the trace is a candidate list together
with the timestamp the environment supplies for that mining pass.  A pass
whose selection is empty leaves the state untouched (as in the source). -/
def applyBuilds : NodeState → List (List Item × String) → NodeState
  | st, [] => st
  | st, p :: rest => applyBuilds (build_block_from_items st p.1 p.2 5).2 rest

/-! ## Submission (`bicle.py:333-387`) -/

/-- The two submission conflicts of `submit` (reported as
`"News already broadcasted"` / `"News already in pending queue"`). -/
inductive SubmitError where
  | AlreadyBroadcast
  | AlreadyPending
deriving DecidableEq, Repr

/-- The duplicate checks and state mutation of the `submit` handler
(`bicle.py:357-380`), with the link metadata (title/source/published,
extracted from the link by the out-of-scope feed parser) and the
`added_at` timestamp passed in as environment inputs.  The `sent_news`
check comes first, then `pending`; only when both miss is the candidate
inserted into the pending map. -/
def submit (st : NodeState) (link title source published submitter addedAt : String) :
    Except SubmitError PendingEntry × NodeState :=
  let ih := create_iHash title link source published
  if (st.sent_news link).isSome then
    (Except.error SubmitError.AlreadyBroadcast, st)
  else if (st.pending link).isSome then
    (Except.error SubmitError.AlreadyPending, st)
  else
    let entry : PendingEntry :=
      { title := title, link := link, source := source, published := published,
        submitter := submitter, added_at := addedAt, iHash := ih }
    (Except.ok entry,
     { st with pending := setKey (some entry) st.pending link })

/-! ## Load-time pruning (`bicle.py:98-112`) -/

/-- The dedup-index pruning of `init_storage` (`bicle.py:100-101`):
`sent_news = {k: v for k, v in sent_news.items() if v >= cutoff}` where
`cutoff = (datetime.now() - timedelta(days=30)).isoformat()` is the
rendered timestamp of thirty days before now, supplied by the
environment.  For ISO-8601 timestamp strings the string comparison
Python performs is exactly chronological order. -/
def prune_sent (cutoff : String) (sent : String → Option String) :
    String → Option String :=
  fun k =>
    match sent k with
    | none => none
    | some v => if strLe cutoff v then some v else none

/-! ## Concrete fixtures used by the witnesses and counterexamples -/

deriving instance DecidableEq for Except

/-- The last block of `p :: xs` (the chain tip while walking). -/
def lastB : Block → List Block → Block
  | p, [] => p
  | _, x :: xs => lastB x xs

/-- A placeholder block for total projections out of `Option Block`. -/
def defBlock : Block := ⟨0, "", [], "", none⟩

/-- A placeholder entry for total projections out of a news list. -/
def defEntry : Entry := ⟨"", "", "", "", "", ""⟩

/-- A freshly seeded node: empty dedup index and pending map, genesis only. -/
def gState : NodeState := ⟨emptyStr, emptyPend, [create_genesis_block]⟩

/-- A fresh candidate item, not yet broadcast. -/
def c1Item : Item := ⟨"News A", "https://a.example/1", "SrcA", "2025-12-01", ""⟩

/-- An entry for a hand-built successor block of genesis. -/
def wEntry : Entry :=
  ⟨"W", "https://w.example/1", "WS", "2025-12-01", "",
   create_iHash "W" "https://w.example/1" "WS" "2025-12-01"⟩

/-- A correctly linked and correctly hashed block on top of genesis. -/
def wBlock : Block :=
  ⟨1, "2025-12-01T00:00:00+00:00", [wEntry], compute_block_hash [wEntry.iHash],
   some create_genesis_block.blockhash⟩

/-- A title of 281 code points — one more than the storage truncation limit. -/
def longTitle : String := ⟨List.replicate 281 'a'⟩

/-- A candidate whose title exceeds the 280-character storage limit. -/
def c5Item : Item := ⟨longTitle, "https://long.example/1", "LS", "2025-12-01", ""⟩

/-- The block built from the over-long-title candidate. -/
def c5Res : Option Block :=
  (build_block_from_items gState [c5Item] "2025-12-01T00:00:00+00:00" 5).1

/-- A short-title candidate. -/
def c5Small : Item := ⟨"T5", "https://s.example/1", "S5", "2025-12-01", ""⟩

/-- The block built from the short-title candidate. -/
def c5sRes : Option Block :=
  (build_block_from_items gState [c5Small] "2025-12-01T00:00:00+00:00" 5).1

/-- A pending submission awaiting mining. -/
def c6Pe : PendingEntry :=
  ⟨"T6", "https://p.example/1", "user-submission", "", "alice",
   "2025-12-01T00:00:00+00:00", create_iHash "T6" "https://p.example/1" "user-submission" ""⟩

/-- A seeded node whose pending map holds `c6Pe`. -/
def c6St : NodeState :=
  ⟨emptyStr, setKey (some c6Pe) emptyPend "https://p.example/1", [create_genesis_block]⟩

/-- The candidate corresponding to the pending submission `c6Pe`. -/
def c6Item : Item := ⟨"T6", "https://p.example/1", "user-submission", "", ""⟩

/-- The result of mining the pending submission. -/
def c6Res : Option Block × NodeState :=
  build_block_from_items c6St [c6Item] "2025-12-02T00:00:00+00:00" 5

/-- A seeded node whose dedup index already holds the candidate's link. -/
def c7St : NodeState :=
  ⟨setKey (some "2025-12-01T00:00:00+00:00") emptyStr "https://b.example/1", emptyPend,
   [create_genesis_block]⟩

/-- A candidate whose link was already broadcast in `c7St`. -/
def c7Item : Item := ⟨"T7", "https://b.example/1", "S7", "", ""⟩

/-- A pending entry for the submission fixtures. -/
def c8Pe : PendingEntry :=
  ⟨"T8", "https://c.example/1", "S8", "", "bob", "t0",
   create_iHash "T8" "https://c.example/1" "S8" ""⟩

/-- A state whose link is both already broadcast and still pending. -/
def c8StBoth : NodeState :=
  ⟨setKey (some "t1") emptyStr "https://c.example/1",
   setKey (some c8Pe) emptyPend "https://c.example/1", []⟩

/-- A state whose link is pending but not broadcast. -/
def c8StPend : NodeState :=
  ⟨emptyStr, setKey (some c8Pe) emptyPend "https://c.example/1", []⟩

/-- A state that has never seen the link. -/
def c8StFree : NodeState := ⟨emptyStr, emptyPend, []⟩

/-- A dedup index holding one entry 31 days old and one 29 days old,
relative to a present instant of 2025-10-12T08:00:00. -/
def c9Sent : String → Option String :=
  setKey (some "2025-09-13T08:00:00")
    (setKey (some "2025-09-11T08:00:00") emptyStr "https://old.example/1")
    "https://new.example/1"

/-- Two candidates sharing one link but with different titles. -/
def c10a : Item := ⟨"Title A", "https://dup.example/x", "S1", "2025-12-01", ""⟩

/-- Second candidate with the same link as `c10a` but another title. -/
def c10b : Item := ⟨"Title B", "https://dup.example/x", "S2", "2025-12-01", ""⟩

/-- The block built from the two same-link candidates. -/
def c10Res : Option Block :=
  (build_block_from_items gState [c10a, c10b] "2025-12-01T00:00:00+00:00" 5).1

/-! ## Sanity checks of the hash engine against NIST test vectors -/

/-- NIST test vector: SHA-256 of the empty message. -/
theorem sha256Hex_empty :
    sha256Hex "" = "e3b0c44298fc1c149afbf4c8996fb92427ae41e4649b934ca495991b7852b855" := by
  rfl

/-- NIST test vector: SHA-256 of `"abc"`. -/
theorem sha256Hex_abc :
    sha256Hex "abc" = "ba7816bf8f01cfea414140de5dae2223b00361a396177a9cb410ff61f20015ad" := by
  rfl

/-! ## The string order is a linear order -/

/-- `lexLe` is total. -/
theorem lexLe_total : ∀ as bs : List Char, lexLe as bs = true ∨ lexLe bs as = true
  | [], _ => Or.inl rfl
  | _ :: _, [] => Or.inr rfl
  | a :: as, b :: bs => by
    rcases Nat.lt_trichotomy a.toNat b.toNat with h | h | h
    · exact Or.inl (by simp [lexLe, h])
    · have h1 : ¬ a.toNat < b.toNat := by omega
      have h2 : ¬ b.toNat < a.toNat := by omega
      rcases lexLe_total as bs with hr | hr
      · exact Or.inl (by simp [lexLe, h1, h2, hr])
      · exact Or.inr (by simp [lexLe, h1, h2, hr])
    · exact Or.inr (by simp [lexLe, h])

/-- `lexLe` is transitive. -/
theorem lexLe_trans : ∀ as bs cs : List Char,
    lexLe as bs = true → lexLe bs cs = true → lexLe as cs = true
  | [], _, _, _, _ => rfl
  | _ :: _, [], _, h1, _ => by simp [lexLe] at h1
  | _ :: _, _ :: _, [], _, h2 => by simp [lexLe] at h2
  | a :: as, b :: bs, c :: cs, h1, h2 => by
    simp only [lexLe] at h1 h2 ⊢
    by_cases hab : a.toNat < b.toNat
    · by_cases hbc : b.toNat < c.toNat
      · have h : a.toNat < c.toNat := by omega
        simp [h]
      · rw [if_neg hbc] at h2
        by_cases hcb : c.toNat < b.toNat
        · rw [if_pos hcb] at h2; exact absurd h2 (by simp)
        · have h : a.toNat < c.toNat := by omega
          simp [h]
    · rw [if_neg hab] at h1
      by_cases hba : b.toNat < a.toNat
      · rw [if_pos hba] at h1; exact absurd h1 (by simp)
      · rw [if_neg hba] at h1
        by_cases hbc : b.toNat < c.toNat
        · have h : a.toNat < c.toNat := by omega
          simp [h]
        · rw [if_neg hbc] at h2
          by_cases hcb : c.toNat < b.toNat
          · rw [if_pos hcb] at h2; exact absurd h2 (by simp)
          · rw [if_neg hcb] at h2
            have h3 : ¬ a.toNat < c.toNat := by omega
            have h4 : ¬ c.toNat < a.toNat := by omega
            rw [if_neg h3, if_neg h4]
            exact lexLe_trans as bs cs h1 h2

/-- `lexLe` is antisymmetric. -/
theorem lexLe_antisymm : ∀ as bs : List Char,
    lexLe as bs = true → lexLe bs as = true → as = bs
  | [], [], _, _ => rfl
  | [], _ :: _, _, h2 => by simp [lexLe] at h2
  | _ :: _, [], h1, _ => by simp [lexLe] at h1
  | a :: as, b :: bs, h1, h2 => by
    simp only [lexLe] at h1 h2
    by_cases hab : a.toNat < b.toNat
    · have h3 : ¬ b.toNat < a.toNat := by omega
      rw [if_neg h3, if_pos hab] at h2
      exact absurd h2 (by simp)
    · by_cases hba : b.toNat < a.toNat
      · rw [if_neg hab, if_pos hba] at h1
        exact absurd h1 (by simp)
      · rw [if_neg hab, if_neg hba] at h1
        rw [if_neg hba, if_neg hab] at h2
        have hn : a.toNat = b.toNat := by omega
        have hc : a = b := Char.ext_iff.mpr (UInt32.ext hn)
        rw [hc, lexLe_antisymm as bs h1 h2]

instance : IsTotal String strOrder := ⟨fun a b => lexLe_total a.data b.data⟩

instance : IsTrans String strOrder := ⟨fun a b c => lexLe_trans a.data b.data c.data⟩

instance : IsAntisymm String strOrder :=
  ⟨fun a b h1 h2 => by
    cases a with
    | mk da =>
      cases b with
      | mk db => exact congrArg String.mk (lexLe_antisymm da db h1 h2)⟩

/-! ## Structural lemmas about the selection loop -/

/-- The selection loop keeps `selected` and `iHashes` aligned: the stored
`iHash` fields are exactly the accumulated digest list. -/
theorem selectItems_map_iHash (sent : String → Option String) (m : Nat) :
    ∀ (items : List Item) (sel : List Entry) (ihs : List String),
      sel.map Entry.iHash = ihs →
      ((selectItems sent m items sel ihs).1).map Entry.iHash =
        (selectItems sent m items sel ihs).2
  | [], _, _, h => h
  | it :: rest, sel, ihs, h => by
    simp only [selectItems]
    split
    · exact selectItems_map_iHash sent m rest sel ihs h
    · split
      · exact selectItems_map_iHash sent m rest sel ihs h
      · split
        · simp [mkEntry, h]
        · exact selectItems_map_iHash sent m rest _ _ (by simp [mkEntry, h])

/-- Everything the selection loop returns is either carried in from the
accumulator or is the (truncated) entry of some input item. -/
theorem selectItems_mem (sent : String → Option String) (m : Nat) :
    ∀ (items : List Item) (sel : List Entry) (ihs : List String) (e : Entry),
      e ∈ (selectItems sent m items sel ihs).1 →
      e ∈ sel ∨ ∃ it, it ∈ items ∧ e = mkEntry it
  | [], _, _, _, he => Or.inl he
  | it :: rest, sel, ihs, e, he => by
    simp only [selectItems] at he
    split at he
    · rcases selectItems_mem sent m rest sel ihs e he with h | ⟨it2, h2, h3⟩
      · exact Or.inl h
      · exact Or.inr ⟨it2, List.mem_cons_of_mem it h2, h3⟩
    · split at he
      · rcases selectItems_mem sent m rest sel ihs e he with h | ⟨it2, h2, h3⟩
        · exact Or.inl h
        · exact Or.inr ⟨it2, List.mem_cons_of_mem it h2, h3⟩
      · split at he
        · rcases List.mem_append.mp he with h | h
          · exact Or.inl h
          · exact Or.inr ⟨it, List.mem_cons_self it rest, by simpa using h⟩
        · rcases selectItems_mem sent m rest _ _ e he with h | ⟨it2, h2, h3⟩
          · rcases List.mem_append.mp h with h | h
            · exact Or.inl h
            · exact Or.inr ⟨it, List.mem_cons_self it rest, by simpa using h⟩
          · exact Or.inr ⟨it2, List.mem_cons_of_mem it h2, h3⟩

/-- When every candidate's link is already in the dedup index the selection
loop selects nothing at all. -/
theorem selectItems_all_sent (sent : String → Option String) (m : Nat) :
    ∀ (items : List Item) (sel : List Entry) (ihs : List String),
      (∀ it ∈ items, (sent it.link).isSome = true) →
      selectItems sent m items sel ihs = (sel, ihs)
  | [], _, _, _ => rfl
  | it :: rest, sel, ihs, h => by
    have h1 : (sent it.link).isSome = true := h it (List.mem_cons_self it rest)
    simp only [selectItems, h1, if_pos]
    exact selectItems_all_sent sent m rest sel ihs
      (fun it2 h2 => h it2 (List.mem_cons_of_mem it h2))

/-! ## Structural lemmas about the store updates -/

/-- Folding point updates over entries whose links avoid `k` leaves the
store unchanged at `k`. -/
theorem foldl_setKey_not_mem {α : Type} (c : Option α) :
    ∀ (sel : List Entry) (m : String → Option α) (k : String),
      k ∉ sel.map Entry.link →
      (sel.foldl (fun m n => setKey c m n.link) m) k = m k
  | [], _, _, _ => rfl
  | n :: rest, m, k, h => by
    have h1 : k ≠ n.link ∧ k ∉ rest.map Entry.link := by
      simpa [not_or] using h
    rw [List.foldl_cons, foldl_setKey_not_mem c rest _ k h1.2]
    simp [setKey, h1.1]

/-- Folding point updates over the selected entries rewrites the store to
`c` at every selected link. -/
theorem foldl_setKey_mem {α : Type} (c : Option α) :
    ∀ (sel : List Entry) (m : String → Option α) (k : String),
      k ∈ sel.map Entry.link →
      (sel.foldl (fun m n => setKey c m n.link) m) k = c
  | [], _, _, h => absurd h (by simp)
  | n :: rest, m, k, h => by
    by_cases hk : k ∈ rest.map Entry.link
    · exact foldl_setKey_mem c rest _ k hk
    · have h1 : k = n.link := by
        rcases List.mem_cons.mp h with h2 | h2
        · exact h2
        · exact absurd h2 hk
      rw [List.foldl_cons, foldl_setKey_not_mem c rest _ k hk]
      simp [setKey, h1]

/-! ## Structural lemmas about chain verification -/

/-- `getLast?` of a nonempty chain is its tip `lastB`. -/
theorem getLast?_cons_eq_lastB : ∀ (p : Block) (xs : List Block),
    (p :: xs).getLast? = some (lastB p xs)
  | _, [] => rfl
  | p, x :: xs => by
    rw [List.getLast?_cons_cons]
    exact getLast?_cons_eq_lastB x xs

/-- Appending one block to a verified walk appends one `checkBlock` test
against the previous tip. -/
theorem verifyFrom_append : ∀ (xs : List Block) (p b : Block),
    verifyFrom p (xs ++ [b]) = (verifyFrom p xs && checkBlock (lastB p xs) b)
  | [], p, b => by simp [verifyFrom, lastB]
  | x :: xs, p, b => by
    show (checkBlock p x && verifyFrom x (xs ++ [b])) =
      ((checkBlock p x && verifyFrom x xs) && checkBlock (lastB x xs) b)
    rw [verifyFrom_append xs x b, Bool.and_assoc]

/-- Appending a correctly linked, correctly hashed block preserves chain
validity. -/
theorem verify_chain_snoc (bs : List Block) (b : Block)
    (hv : verify_chain bs = true)
    (hprev : b.previous = bs.getLast?.map Block.blockhash)
    (hbh : b.blockhash = compute_block_hash (b.news.map Entry.iHash)) :
    verify_chain (bs ++ [b]) = true := by
  cases bs with
  | nil => simp [verify_chain, verifyFrom]
  | cons p xs =>
    rw [getLast?_cons_eq_lastB] at hprev
    simp only [verify_chain] at hv
    show verifyFrom p (xs ++ [b]) = true
    rw [verifyFrom_append, hv, Bool.true_and]
    simp [checkBlock, hprev, hbh]

/-- Replacing the news list of a block strictly after the walk's starting
point, without recomputing its `blockhash`, makes the walk fail — as long as
the recomputed block hash actually changes. -/
theorem verifyFrom_mutate : ∀ (pre : List Block) (p b : Block) (post : List Block)
    (news2 : List Entry),
    verifyFrom p (pre ++ b :: post) = true →
    compute_block_hash (news2.map Entry.iHash) ≠
      compute_block_hash (b.news.map Entry.iHash) →
    verifyFrom p (pre ++ { b with news := news2 } :: post) = false
  | [], p, b, post, news2, hv, hne => by
    simp only [List.nil_append, verifyFrom, Bool.and_eq_true] at hv
    obtain ⟨hc, -⟩ := hv
    simp only [checkBlock, Bool.and_eq_true, beq_iff_eq] at hc
    have hbad : (b.blockhash == compute_block_hash (news2.map Entry.iHash)) = false := by
      rw [hc.2]
      exact beq_eq_false_iff_ne.mpr (Ne.symm hne)
    simp only [List.nil_append, verifyFrom, checkBlock]
    simp [hc.1, hbad]
  | x :: pre, p, b, post, news2, hv, hne => by
    simp only [List.cons_append, verifyFrom, Bool.and_eq_true] at hv
    show (checkBlock p x && verifyFrom x (pre ++ { b with news := news2 } :: post)) = false
    rw [verifyFrom_mutate pre x b post news2 hv.2 hne]
    simp

/-- Characterization of a successful build: the returned block and the
updated state, in terms of the selection loop's result. -/
theorem build_some (st : NodeState) (items : List Item) (now : String) (m : Nat)
    (b : Block) (hb : (build_block_from_items st items now m).1 = some b) :
    b.news = (selectItems st.sent_news m items [] []).1 ∧
    b.timestamp = now ∧
    b.block_number = st.blocks.length + 1 ∧
    b.blockhash = compute_block_hash (selectItems st.sent_news m items [] []).2 ∧
    b.previous = st.blocks.getLast?.map Block.blockhash ∧
    (build_block_from_items st items now m).2.sent_news =
      (selectItems st.sent_news m items [] []).1.foldl
        (fun mm n => setKey (some now) mm n.link) st.sent_news ∧
    (build_block_from_items st items now m).2.pending =
      (selectItems st.sent_news m items [] []).1.foldl
        (fun mm n => setKey none mm n.link) st.pending ∧
    (build_block_from_items st items now m).2.blocks = st.blocks ++ [b] := by
  simp only [build_block_from_items] at hb ⊢
  by_cases he : (selectItems st.sent_news m items [] []).1.isEmpty = true
  · rw [if_pos he] at hb
    exact absurd hb (by simp)
  · rw [if_neg he] at hb ⊢
    have hbv := (Option.some.injEq _ _).mp hb
    subst hbv
    exact ⟨rfl, rfl, rfl, rfl, rfl, rfl, rfl, rfl⟩

/-- A build that returns `None` leaves the state untouched. -/
theorem build_none (st : NodeState) (items : List Item) (now : String) (m : Nat)
    (hb : (build_block_from_items st items now m).1 = none) :
    (build_block_from_items st items now m).2 = st := by
  simp only [build_block_from_items] at hb ⊢
  by_cases he : (selectItems st.sent_news m items [] []).1.isEmpty = true
  · rw [if_pos he]
  · rw [if_neg he] at hb
    exact absurd hb (by simp)

/-- One build pass — successful or not — preserves chain validity. -/
theorem build_preserves_verify (st : NodeState) (items : List Item) (now : String)
    (hv : verify_chain st.blocks = true) :
    verify_chain (build_block_from_items st items now 5).2.blocks = true := by
  cases hb : (build_block_from_items st items now 5).1 with
  | none => rw [build_none st items now 5 hb]; exact hv
  | some b =>
    obtain ⟨hnews, -, -, hbh, hprev, -, -, hblocks⟩ := build_some st items now 5 b hb
    rw [hblocks]
    apply verify_chain_snoc st.blocks b hv hprev
    rw [hbh, hnews, selectItems_map_iHash st.sent_news 5 items [] [] rfl]

/-- `strTake` is the identity on strings within the limit. -/
theorem strTake_of_le (n : Nat) (s : String) (h : s.data.length ≤ n) :
    strTake n s = s := by
  cases s with
  | mk data =>
    simp only [strTake]
    rw [List.take_of_length_le h]

/-! ## The claims -/

/-- Claim C1 (code-bug evidence): with the seeded ledger holding exactly the
genesis block (length 1, genesis numbered 0), building a block from one
fresh candidate yields `block_number = 2`, not `1` as the claim states — the
code computes `len(blocks) + 1`, so no block is ever numbered 1 and the
numbering after genesis runs 0, 2, 3, … -/
theorem block_number_skips_one :
    gState.blocks.length = 1 ∧
    create_genesis_block.block_number = 0 ∧
    ((build_block_from_items gState [c1Item] "2025-12-01T00:00:00+00:00" 5).1).map
      Block.block_number = some 2 :=
  ⟨rfl, rfl, by decide⟩

/-- Claim C2 counterexample: `[genesis, wBlock]` verifies; emptying the
genesis block's news list without recomputing any hash still verifies,
because the loop of `verify_chain` starts at index 1 and never recomputes
the genesis `blockhash` — refuting the claim for the block at index 0. -/
theorem genesis_news_mutation_undetected :
    verify_chain [create_genesis_block, wBlock] = true ∧
    ({ create_genesis_block with news := [] } : Block).news ≠
      create_genesis_block.news ∧
    verify_chain [{ create_genesis_block with news := [] }, wBlock] = true :=
  ⟨by decide, by decide, by decide⟩

/-- Claim C2 (amended): replacing the news list of any non-genesis block
(index ≥ 1) without recomputing its `blockhash` makes `verify_chain` return
false, provided the recomputed block hash of the new news list differs from
that of the old one — which any addition, removal or alteration of an
entry's iHash achieves barring a SHA-256 collision.  Mutations of the
genesis block itself go undetected (`genesis_news_mutation_undetected`). -/
theorem verify_chain_detects_nongenesis_news_mutation
    (g : Block) (pre : List Block) (b : Block) (post : List Block)
    (news2 : List Entry)
    (hv : verify_chain (g :: (pre ++ b :: post)) = true)
    (hne : compute_block_hash (news2.map Entry.iHash) ≠
      compute_block_hash (b.news.map Entry.iHash)) :
    verify_chain (g :: (pre ++ { b with news := news2 } :: post)) = false :=
  verifyFrom_mutate pre g b post news2 hv hne

/-- Witness for `verify_chain_detects_nongenesis_news_mutation`: emptying
block 1's news list in the concrete valid chain `[genesis, wBlock]` is
detected. -/
theorem verify_chain_detects_nongenesis_news_mutation_witness :
    verify_chain [create_genesis_block, { wBlock with news := [] }] = false :=
  verify_chain_detects_nongenesis_news_mutation create_genesis_block []
    wBlock [] [] (by decide) (by decide)

/-- Claim C3: every ledger obtained by seeding the genesis block and then
running any sequence of build passes (in particular any number of successful
builds) satisfies `verify_chain`: each non-genesis block's `previous` equals
the preceding block's `blockhash` and its `blockhash` equals the hash
recomputed from its own entries' iHashes. -/
theorem verify_chain_of_builds (sent : String → Option String)
    (pend : String → Option PendingEntry) (trace : List (List Item × String)) :
    verify_chain (applyBuilds ⟨sent, pend, [create_genesis_block]⟩ trace).blocks = true := by
  have h : ∀ (tr : List (List Item × String)) (st : NodeState),
      verify_chain st.blocks = true →
      verify_chain (applyBuilds st tr).blocks = true := by
    intro tr
    induction tr with
    | nil => exact fun _ h => h
    | cons p rest ih =>
      exact fun st h => ih _ (build_preserves_verify st p.1 p.2 h)
  exact h trace _ rfl

/-- Claim C4: `compute_block_hash` is permutation-invariant — its value
depends only on the multiset of input digests, not on their order. -/
theorem compute_block_hash_perm_invariant (l1 l2 : List String)
    (h : l1.Perm l2) : compute_block_hash l1 = compute_block_hash l2 := by
  unfold compute_block_hash
  have hs : List.insertionSort strOrder l1 = List.insertionSort strOrder l2 :=
    List.eq_of_perm_of_sorted
      (((List.perm_insertionSort strOrder l1).trans h).trans
        (List.perm_insertionSort strOrder l2).symm)
      (List.sorted_insertionSort strOrder l1)
      (List.sorted_insertionSort strOrder l2)
  rw [hs]

/-- Witness for `compute_block_hash_perm_invariant` at a concrete
three-element shuffle. -/
theorem compute_block_hash_perm_invariant_witness :
    (["b", "a", "c"] : List String).Perm ["c", "b", "a"] ∧
    compute_block_hash ["b", "a", "c"] = compute_block_hash ["c", "b", "a"] :=
  ⟨by decide, compute_block_hash_perm_invariant _ _ (by decide)⟩

/-- Claim C5 counterexample: building from a candidate whose title has 281
code points stores a 280-code-point title, but an `iHash` computed from the
untruncated title — so the stored `iHash` differs from the SHA-256 digest of
the concatenation of the stored fields. -/
theorem iHash_not_over_stored_title :
    c5Item.title.data.length = 281 ∧
    (c5Res.map fun b => b.news.map fun e => e.title.data.length) = some [280] ∧
    (c5Res.map fun b => b.news.map fun e =>
      e.iHash == create_iHash e.title e.link e.source e.published) = some [false] :=
  ⟨by decide, by decide, by decide⟩

/-- Claim C5 (amended): every entry of a built block comes from a candidate
item; its `iHash` is the SHA-256 hex digest over the UTF-8 concatenation of
the candidate's original (pre-truncation) title with the stored link, source
and published fields, and this agrees with the digest over the stored fields
exactly when the candidate's title did not exceed 280 characters. -/
theorem build_entry_iHash_spec (st : NodeState) (items : List Item) (now : String)
    (b : Block) (e : Entry)
    (hb : (build_block_from_items st items now 5).1 = some b) (he : e ∈ b.news) :
    ∃ it, it ∈ items ∧
      e.iHash = create_iHash it.title it.link it.source it.published ∧
      e.title = strTake 280 it.title ∧ e.link = it.link ∧ e.source = it.source ∧
      e.published = it.published ∧
      (it.title.data.length ≤ 280 →
        e.iHash = create_iHash e.title e.link e.source e.published) := by
  obtain ⟨hnews, -, -, -, -, -, -, -⟩ := build_some st items now 5 b hb
  rw [hnews] at he
  rcases selectItems_mem st.sent_news 5 items [] [] e he with h | ⟨it, hit, hmk⟩
  · exact absurd h (List.not_mem_nil e)
  · subst hmk
    refine ⟨it, hit, rfl, rfl, rfl, rfl, rfl, ?_⟩
    intro hlen
    simp only [mkEntry]
    rw [strTake_of_le 280 it.title hlen]

/-- Witness for `build_entry_iHash_spec` at the concrete short-title
build. -/
theorem build_entry_iHash_spec_witness :
    ∃ it, it ∈ [c5Small] ∧
      ((c5sRes.getD defBlock).news.getD 0 defEntry).iHash =
        create_iHash it.title it.link it.source it.published ∧
      ((c5sRes.getD defBlock).news.getD 0 defEntry).title = strTake 280 it.title ∧
      ((c5sRes.getD defBlock).news.getD 0 defEntry).link = it.link ∧
      ((c5sRes.getD defBlock).news.getD 0 defEntry).source = it.source ∧
      ((c5sRes.getD defBlock).news.getD 0 defEntry).published = it.published ∧
      (it.title.data.length ≤ 280 →
        ((c5sRes.getD defBlock).news.getD 0 defEntry).iHash =
          create_iHash ((c5sRes.getD defBlock).news.getD 0 defEntry).title
            ((c5sRes.getD defBlock).news.getD 0 defEntry).link
            ((c5sRes.getD defBlock).news.getD 0 defEntry).source
            ((c5sRes.getD defBlock).news.getD 0 defEntry).published) :=
  build_entry_iHash_spec gState [c5Small] "2025-12-01T00:00:00+00:00"
    (c5sRes.getD defBlock) ((c5sRes.getD defBlock).news.getD 0 defEntry)
    (by decide) (by decide)

/-- Claim C6: after a successful build, every selected entry's link maps to
the new block's timestamp in the dedup index, is absent from the pending
map, and the new block's `previous` equals the blockhash of the block that
was the chain tip before the append. -/
theorem build_updates_dedup_pending_previous (st : NodeState) (items : List Item)
    (now : String) (b tip : Block) (e : Entry)
    (hb : (build_block_from_items st items now 5).1 = some b)
    (htip : st.blocks.getLast? = some tip) (he : e ∈ b.news) :
    (build_block_from_items st items now 5).2.sent_news e.link = some b.timestamp ∧
    (build_block_from_items st items now 5).2.pending e.link = none ∧
    b.previous = some tip.blockhash := by
  obtain ⟨hnews, hts, -, -, hprev, hsent, hpend, -⟩ := build_some st items now 5 b hb
  have hmem : e.link ∈ ((selectItems st.sent_news 5 items [] []).1).map Entry.link :=
    List.mem_map_of_mem Entry.link (hnews ▸ he)
  refine ⟨?_, ?_, ?_⟩
  · rw [hsent, hts, foldl_setKey_mem (some now) _ st.sent_news e.link hmem]
  · rw [hpend, foldl_setKey_mem none _ st.pending e.link hmem]
  · rw [hprev, htip]
    rfl

/-- Witness for `build_updates_dedup_pending_previous`: mining the pending
submission `c6Pe` marks its link broadcast, clears it from pending, and
links the new block to genesis. -/
theorem build_updates_dedup_pending_previous_witness :
    c6Res.2.sent_news "https://p.example/1" =
      some ((c6Res.1.getD defBlock).timestamp) ∧
    c6Res.2.pending "https://p.example/1" = none ∧
    (c6Res.1.getD defBlock).previous = some create_genesis_block.blockhash := by
  have h := build_updates_dedup_pending_previous c6St [c6Item]
    "2025-12-02T00:00:00+00:00" (c6Res.1.getD defBlock) create_genesis_block
    ((c6Res.1.getD defBlock).news.getD 0 defEntry)
    (by decide) (by rfl) (by decide)
  exact ⟨h.1, h.2.1, h.2.2⟩

/-- Claim C7: when every candidate's link is already in the dedup index the
build returns `None` — not an error and not a zero-item block — and the
ledger, dedup index and pending map are all returned unchanged. -/
theorem build_all_broadcast_noBlock (st : NodeState) (items : List Item)
    (now : String)
    (h : ∀ it ∈ items, (st.sent_news it.link).isSome = true) :
    build_block_from_items st items now 5 = (none, st) := by
  simp only [build_block_from_items, selectItems_all_sent st.sent_news 5 items [] [] h]
  rfl

/-- Witness for `build_all_broadcast_noBlock`: a pool consisting of one
already-broadcast link mines nothing and changes nothing. -/
theorem build_all_broadcast_noBlock_witness :
    build_block_from_items c7St [c7Item] "2025-12-02T00:00:00+00:00" 5 =
      (none, c7St) :=
  build_all_broadcast_noBlock c7St [c7Item] "2025-12-02T00:00:00+00:00" (by decide)

/-- Claim C8 counterexample: in a state where the link is simultaneously
pending and already broadcast, resubmission fails with `AlreadyBroadcast`,
not `AlreadyPending` — the dedup-index check takes precedence, refuting the
claim's unconditional "already pending ⇒ AlreadyPending". -/
theorem submit_pending_link_not_AlreadyPending :
    (c8StBoth.pending "https://c.example/1").isSome = true ∧
    (submit c8StBoth "https://c.example/1" "T8" "S8" "" "bob" "t2").1 =
      Except.error SubmitError.AlreadyBroadcast ∧
    (submit c8StBoth "https://c.example/1" "T8" "S8" "" "bob" "t2").1 ≠
      Except.error SubmitError.AlreadyPending :=
  ⟨by decide, by decide, by decide⟩

/-- Claim C8 (amended): a link already in the dedup index fails with
`AlreadyBroadcast` (taking precedence even if it is also pending); a link
in the pending map but not in the dedup index fails with `AlreadyPending`;
both failures leave the state untouched; only otherwise is the candidate
inserted into the pending map, leaving the dedup index, ledger and all
other pending keys unchanged. -/
theorem submit_spec (st : NodeState)
    (link title source published submitter addedAt : String) :
    ((st.sent_news link).isSome = true →
      (submit st link title source published submitter addedAt).1 =
        Except.error SubmitError.AlreadyBroadcast ∧
      (submit st link title source published submitter addedAt).2 = st) ∧
    (st.sent_news link = none → (st.pending link).isSome = true →
      (submit st link title source published submitter addedAt).1 =
        Except.error SubmitError.AlreadyPending ∧
      (submit st link title source published submitter addedAt).2 = st) ∧
    (st.sent_news link = none → st.pending link = none →
      (submit st link title source published submitter addedAt).1 =
        Except.ok (PendingEntry.mk title link source published submitter addedAt
          (create_iHash title link source published)) ∧
      (submit st link title source published submitter addedAt).2.sent_news =
        st.sent_news ∧
      (submit st link title source published submitter addedAt).2.blocks =
        st.blocks ∧
      (submit st link title source published submitter addedAt).2.pending link =
        some (PendingEntry.mk title link source published submitter addedAt
          (create_iHash title link source published)) ∧
      ∀ k, k ≠ link →
        (submit st link title source published submitter addedAt).2.pending k =
          st.pending k) := by
  refine ⟨?_, ?_, ?_⟩
  · intro h1
    simp [submit, h1]
  · intro h1 h2
    have h1b : (st.sent_news link).isSome = false := by simp [h1]
    simp [submit, h1b, h2]
  · intro h1 h2
    have h1b : (st.sent_news link).isSome = false := by simp [h1]
    have h2b : (st.pending link).isSome = false := by simp [h2]
    refine ⟨?_, ?_, ?_, ?_, ?_⟩
    · simp [submit, h1b, h2b]
    · simp [submit, h1b, h2b]
    · simp [submit, h1b, h2b]
    · simp [submit, h1b, h2b, setKey]
    · intro k hk
      simp [submit, h1b, h2b, setKey, hk]

/-- Witness for `submit_spec`: all three behaviours at concrete states —
broadcast link rejected as `AlreadyBroadcast`, pending link rejected as
`AlreadyPending`, and a fresh link inserted into the pending map. -/
theorem submit_spec_witness :
    (submit c8StBoth "https://c.example/1" "T8" "S8" "" "bob" "t2").1 =
      Except.error SubmitError.AlreadyBroadcast ∧
    (submit c8StPend "https://c.example/1" "T8" "S8" "" "bob" "t2").1 =
      Except.error SubmitError.AlreadyPending ∧
    (submit c8StFree "https://c.example/1" "T8" "S8" "" "bob" "t2").2.pending
      "https://c.example/1" ≠ none := by
  refine ⟨?_, ?_, ?_⟩
  · exact ((submit_spec c8StBoth "https://c.example/1" "T8" "S8" "" "bob" "t2").1
      (by decide)).1
  · exact ((submit_spec c8StPend "https://c.example/1" "T8" "S8" "" "bob" "t2").2.1
      (by decide) (by decide)).1
  · have h := ((submit_spec c8StFree "https://c.example/1" "T8" "S8" "" "bob" "t2").2.2
      (by decide) (by decide)).2.2.2.1
    rw [h]
    simp

/-- Claim C9: the load-time pruning keeps exactly the dedup entries whose
timestamp is at least the cutoff `isoformat(now − 30 days)` — for ISO-8601
timestamps the string comparison is chronological, so an entry older than
30 days (strictly below the cutoff) is absent afterwards, and an entry
newer than the cutoff (e.g. 29 days old) is retained with its value. -/
theorem prune_sent_spec (sent : String → Option String) (cutoff k v : String) :
    (sent k = some v → strLe cutoff v = false → prune_sent cutoff sent k = none) ∧
    (sent k = some v → strLe cutoff v = true → prune_sent cutoff sent k = some v) ∧
    (sent k = none → prune_sent cutoff sent k = none) := by
  refine ⟨?_, ?_, ?_⟩
  · intro h1 h2
    simp [prune_sent, h1, h2]
  · intro h1 h2
    simp [prune_sent, h1, h2]
  · intro h1
    simp [prune_sent, h1]

/-- Witness for `prune_sent_spec`: with now = 2025-10-12T08:00:00 (cutoff
2025-09-12T08:00:00), the entry stamped 31 days ago is pruned and the one
stamped 29 days ago survives. -/
theorem prune_sent_spec_witness :
    prune_sent "2025-09-12T08:00:00" c9Sent "https://old.example/1" = none ∧
    prune_sent "2025-09-12T08:00:00" c9Sent "https://new.example/1" =
      some "2025-09-13T08:00:00" :=
  ⟨(prune_sent_spec c9Sent "2025-09-12T08:00:00" "https://old.example/1"
      "2025-09-11T08:00:00").1 (by decide) (by decide),
   (prune_sent_spec c9Sent "2025-09-12T08:00:00" "https://new.example/1"
      "2025-09-13T08:00:00").2.1 (by decide) (by decide)⟩

/-- Claim C10: a single build pass can select two candidates sharing one
link — within-pass deduplication compares only iHash values, and the dedup
index is consulted by link only against its pre-build contents — producing
one block whose news list holds two entries with the same link and distinct
iHashes. -/
theorem duplicate_link_entries_in_one_block :
    c10a.link = c10b.link ∧
    c10a.title ≠ c10b.title ∧
    gState.sent_news c10a.link = none ∧
    (c10Res.map fun b => b.news.map Entry.link) =
      some ["https://dup.example/x", "https://dup.example/x"] ∧
    ((c10Res.getD defBlock).news.map Entry.iHash).Nodup :=
  ⟨rfl, by decide, rfl, by decide, by decide⟩

end Bicle
